import Mathlib

/-!
Verification of the metric normalization and gap-score pipeline of the
proven-demand-digital-products repository.

Shallow embedding conventions:
* Python floats are modelled as rationals (`ℚ`); all arithmetic in the
  pipeline is exact affine arithmetic, min/max, and averaging.
* The `marketplace_metrics` table is modelled as a `List Metric`; the
  `gap_scores` table as a `List GapScore`; the database session is the
  pair of both lists (`Store`), passed and returned explicitly.
* SQLModel row mutation (`metric.normalized_value = ...` followed by
  `session.commit()`) becomes a pure rewrite of the metric list.
* `week_start : date` is an opaque key, modelled as `Nat`.
* The auto-assigned `id` and `created_at` columns play no role in any of
  the verified properties and are omitted from the row models.
-/

namespace ProvenDemand

/-- The `MetricType` enumeration of `app/models/marketplace_metrics.py`. -/
inductive MetricType
  | demand
  | supply
  | quality
  | price
  deriving DecidableEq, Repr

/-- The `VerdictType` enumeration of `app/models/gap_scores.py`. -/
inductive Verdict
  | high_opportunity
  | competitive
  | saturated
  deriving DecidableEq, Repr

/-- A row of the `marketplace_metrics` table (`MarketplaceMetrics`). -/
structure Metric where
  platform : String
  category : String
  metric_type : MetricType
  raw_value : ℚ
  normalized_value : ℚ
  week_start : Nat
  deriving DecidableEq, Repr

/-- A row of the `gap_scores` table (`GapScore`). -/
structure GapScore where
  category : String
  platform : String
  gap_score : ℚ
  verdict : Verdict
  week_start : Nat
  deriving DecidableEq, Repr

/-- The database state seen by the pipeline: both tables. -/
structure Store where
  metrics : List Metric
  scores : List GapScore
  deriving DecidableEq, Repr

/-! ### Normalization service (`app/services/normalization.py`) -/

/-- `normalize_min_max` of `app/services/normalization.py`:
midpoint `0.5` on a degenerate range, otherwise min-max rescaling
clamped to `[0, 1]` via `max(0.0, min(1.0, normalized))`. -/
def normalize_min_max (value min_val max_val : ℚ) : ℚ :=
  if max_val = min_val then 1/2
  else max 0 (min 1 ((value - min_val) / (max_val - min_val)))

/-- The cohort predicate of `normalize_metrics_for_week`'s WHERE clause:
same `platform`, `metric_type` and `week_start`. -/
def matchesCohort (p : String) (t : MetricType) (w : Nat) (m : Metric) : Bool :=
  decide (m.platform = p ∧ m.metric_type = t ∧ m.week_start = w)

/-- Python `min(raw_values)` over a list (the list is nonempty where used). -/
def listMin : List ℚ → ℚ
  | [] => 0
  | x :: xs => xs.foldl min x

/-- Python `max(raw_values)` over a list (the list is nonempty where used). -/
def listMax : List ℚ → ℚ
  | [] => 0
  | x :: xs => xs.foldl max x

/-- `normalize_metrics_for_week` of `app/services/normalization.py`:
fetch the cohort; return `0` touching nothing if it is empty; otherwise
compute min and max of the cohort's raw values and rewrite the
`normalized_value` of every cohort member, returning the cohort size. -/
def normalize_metrics_for_week (ms : List Metric) (p : String) (t : MetricType)
    (w : Nat) : List Metric × Nat :=
  let cohort := ms.filter (matchesCohort p t w)
  if cohort.isEmpty then (ms, 0)
  else
    let min_val := listMin (cohort.map (fun m => m.raw_value))
    let max_val := listMax (cohort.map (fun m => m.raw_value))
    (ms.map (fun m =>
        if matchesCohort p t w m then
          { m with normalized_value := normalize_min_max m.raw_value min_val max_val }
        else m),
      cohort.length)

/-- The hardcoded `platforms` list of `normalize_all_metrics_for_week`. -/
def platforms : List String := ["etsy", "gumroad", "whop", "reddit"]

/-- The hardcoded `metric_types` list of `normalize_all_metrics_for_week`. -/
def metric_types : List MetricType := [.demand, .supply]

/-- The cohort keys visited by the two nested `for` loops of
`normalize_all_metrics_for_week`, in loop order:
platforms outer, metric types inner. -/
def weekCohortKeys : List (String × MetricType) :=
  platforms.flatMap fun p => metric_types.map fun t => (p, t)

/-- Sequentially run `normalize_metrics_for_week` for each cohort key,
threading the metric list and summing the returned counts (the loop body
of `normalize_all_metrics_for_week`). -/
def runCohorts (keys : List (String × MetricType)) (w : Nat) (ms : List Metric) :
    List Metric × Nat :=
  match keys with
  | [] => (ms, 0)
  | (p, t) :: rest =>
    let r := normalize_metrics_for_week ms p t w
    let rr := runCohorts rest w r.1
    (rr.1, r.2 + rr.2)

/-- `normalize_all_metrics_for_week` of `app/services/normalization.py`:
normalize every platform × metric-type cohort for the week and return the
total count. -/
def normalize_all_metrics_for_week (ms : List Metric) (w : Nat) : List Metric × Nat :=
  runCohorts weekCohortKeys w ms

/-! ### Scoring service (`app/services/scoring.py`) -/

/-- `HIGH_OPPORTUNITY_THRESHOLD` of `app/services/scoring.py`. -/
def HIGH_OPPORTUNITY_THRESHOLD : ℚ := 6/10

/-- `COMPETITIVE_THRESHOLD` of `app/services/scoring.py`. -/
def COMPETITIVE_THRESHOLD : ℚ := 3/10

/-- `compute_gap_score` of `app/services/scoring.py`:
`gap = demand - supply`, remapped by `(gap + 1) / 2` and clamped to `[0, 1]`. -/
def compute_gap_score (demand_score supply_score : ℚ) : ℚ :=
  let gap := demand_score - supply_score
  let normalized_gap := (gap + 1) / 2
  max 0 (min 1 normalized_gap)

/-- `assign_verdict` of `app/services/scoring.py`: threshold cascade
`>= 0.6` high opportunity, `>= 0.3` competitive, otherwise saturated. -/
def assign_verdict (gap_score : ℚ) : Verdict :=
  if HIGH_OPPORTUNITY_THRESHOLD ≤ gap_score then .high_opportunity
  else if COMPETITIVE_THRESHOLD ≤ gap_score then .competitive
  else .saturated

/-- The entity predicate of the aggregation WHERE clauses in
`compute_gap_score_for_category`: same `category`, `platform`,
`week_start` and `metric_type`. -/
def matchesEntity (c p : String) (w : Nat) (t : MetricType) (m : Metric) : Bool :=
  decide (m.category = c ∧ m.platform = p ∧ m.week_start = w ∧ m.metric_type = t)

/-- The `func.avg(normalized_value)` aggregate followed by `or 0.0` in
`compute_gap_score_for_category`: arithmetic mean of `normalized_value`
over the matching rows, `0.0` when no row matches (SQL AVG of an empty
selection is NULL, which `or 0.0` turns into `0.0`). -/
def avgNormalized (ms : List Metric) (c p : String) (w : Nat) (t : MetricType) : ℚ :=
  let sel := ms.filter (matchesEntity c p w t)
  if sel.isEmpty then 0
  else (sel.map (fun m => m.normalized_value)).sum / sel.length

/-- `compute_gap_score_for_category` of `app/services/scoring.py`:
aggregate demand and supply, return `None` when both aggregates are
exactly `0.0`, otherwise build the `GapScore` row. -/
def compute_gap_score_for_category (ms : List Metric) (category platform : String)
    (w : Nat) : Option GapScore :=
  let demand_score := avgNormalized ms category platform w .demand
  let supply_score := avgNormalized ms category platform w .supply
  if demand_score = 0 ∧ supply_score = 0 then none
  else
    let gap := compute_gap_score demand_score supply_score
    some { category := category, platform := platform, gap_score := gap,
           verdict := assign_verdict gap, week_start := w }

/-- The `SELECT DISTINCT category, platform WHERE week_start = w` query of
`compute_all_gap_scores_for_week`, as the deduplicated list of key pairs
of the week's metric rows (SQL leaves the order of DISTINCT unspecified;
any deterministic dedup is a faithful model, and none of the verified
properties depends on this order). -/
def distinctCombos (ms : List Metric) (w : Nat) : List (String × String) :=
  ((ms.filter (fun m => decide (m.week_start = w))).map
    (fun m => (m.category, m.platform))).dedup

/-- The rows inserted by one run of `compute_all_gap_scores_for_week`:
one per distinct combination, skipping the `None` results. -/
def weekRows (ms : List Metric) (w : Nat) : List GapScore :=
  (distinctCombos ms w).filterMap fun pr =>
    compute_gap_score_for_category ms pr.1 pr.2 w

/-- `compute_all_gap_scores_for_week` of `app/services/scoring.py`:
enumerate the week's distinct (category, platform) pairs, delete every
existing `GapScore` row of the week, insert a freshly computed row per
pair when it is not `None`, and return the inserted count. -/
def compute_all_gap_scores_for_week (st : Store) (w : Nat) : Store × Nat :=
  let kept := st.scores.filter fun s => !decide (s.week_start = w)
  let inserted := weekRows st.metrics w
  ({ st with scores := kept ++ inserted }, inserted.length)

/-- The weekly pipeline body of `compute_pipeline_task`
(`app/services/tasks.py`): `normalize_all_metrics_for_week` followed by
`compute_all_gap_scores_for_week`, returning the two counts. -/
def run_week (st : Store) (w : Nat) : Store × Nat × Nat :=
  let n := normalize_all_metrics_for_week st.metrics w
  let c := compute_all_gap_scores_for_week { st with metrics := n.1 } w
  (c.1, n.2, c.2)

/-- The spec's clamp to the unit interval, for comparison with the code. -/
def clamp01 (x : ℚ) : ℚ := max 0 (min 1 x)

/-- The per-element rewrite performed by `normalize_metrics_for_week` on
the cohort `(p, t, w)`, with min and max taken over the cohort inside `ms`. -/
def normStep (ms : List Metric) (p : String) (t : MetricType) (w : Nat)
    (m : Metric) : Metric :=
  if matchesCohort p t w m then
    { m with normalized_value :=
        (normalize_min_max m.raw_value
          (listMin ((ms.filter (matchesCohort p t w)).map (fun x => x.raw_value)))
          (listMax ((ms.filter (matchesCohort p t w)).map (fun x => x.raw_value)))) }
  else m

/-- The cumulative effect on one metric of sweeping the cohorts `keys` of
week `w` over the metric list `ms`: a metric belonging to a swept cohort is
re-normalized against its cohort's raw values in `ms`, anything else is
left alone. -/
def reNormF (keys : List (String × MetricType)) (w : Nat) (ms : List Metric)
    (m : Metric) : Metric :=
  if (m.platform, m.metric_type) ∈ keys ∧ m.week_start = w then
    { m with normalized_value :=
        (normalize_min_max m.raw_value
          (listMin ((ms.filter (matchesCohort m.platform m.metric_type w)).map
            (fun x => x.raw_value)))
          (listMax ((ms.filter (matchesCohort m.platform m.metric_type w)).map
            (fun x => x.raw_value)))) }
  else m

/-- Concrete metric rows exercising the aggregation: two demand
observations for the same entity. -/
def msEntity : List Metric :=
  [⟨"etsy", "planners", .demand, 10, 1/4, 0⟩,
   ⟨"etsy", "planners", .demand, 20, 3/4, 0⟩]

/-- A one-row cohort before normalization (sentinel `normalized_value = 0`). -/
def msCohort : List Metric := [⟨"etsy", "planners", .demand, 5, 0, 0⟩]

/-- The same row after `normalize_metrics_for_week` runs on its cohort. -/
def mCohortOut : Metric := ⟨"etsy", "planners", .demand, 5, 1/2, 0⟩

/-- `get_metric_avg` of `app/api/summary.py`. Despite its name and its
docstring ("Get average normalized value"), the query selects
`normalized_value` with `.first()`, so the function returns the FIRST
matching row's normalized value; `result or 0.0` maps a missing row (and
a first value of `0.0`) to `0.0`. -/
def get_metric_avg (ms : List Metric) (c p : String) (w : Nat) (t : MetricType) : ℚ :=
  match ms.filter (matchesEntity c p w t) with
  | [] => 0
  | m :: _ => m.normalized_value

/-- A row of the summary response (`SummaryOpportunity` in
`app/models/summary.py`), without the formatted `insight` string (decimal
string formatting is not modelled). -/
structure SummaryOpportunity where
  category : String
  platform : String
  gap_score : ℚ
  verdict : Verdict
  avg_demand : ℚ
  avg_supply : ℚ
  avg_quality : ℚ
  avg_price : ℚ
  deriving DecidableEq, Repr

/-- The enrichment loop body of `get_summary` (`app/api/summary.py`):
build a `SummaryOpportunity` from a stored `GapScore` row, the four
metric-kind fields delivered by `get_metric_avg`. -/
def enrichRow (ms : List Metric) (w : Nat) (g : GapScore) : SummaryOpportunity :=
  { category := g.category, platform := g.platform, gap_score := g.gap_score,
    verdict := g.verdict,
    avg_demand := get_metric_avg ms g.category g.platform w .demand,
    avg_supply := get_metric_avg ms g.category g.platform w .supply,
    avg_quality := get_metric_avg ms g.category g.platform w .quality,
    avg_price := get_metric_avg ms g.category g.platform w .price }

/-- Failing input for the summary averages: two demand observations with
normalized values `0.2` and `0.8` for the same entity key. -/
def msBug : List Metric :=
  [⟨"etsy", "digital planners", .demand, 10, 1/5, 0⟩,
   ⟨"etsy", "digital planners", .demand, 30, 4/5, 0⟩]

/-- A stored `GapScore` row for the entity of `msBug`. -/
def gBug : GapScore := ⟨"digital planners", "etsy", 3/4, .high_opportunity, 0⟩

/-- Relational model of the SQL query
`SELECT ... WHERE week_start = w ORDER BY gap_score DESC LIMIT n` issued by
`get_opportunities` (`app/api/opportunities.py`) and by the top-5 query of
`get_summary` (`app/api/summary.py`). The code names no secondary sort
key, so SQL allows any permutation of the week's rows that is
non-increasing in `gap_score`; the result is the first `n` rows of such a
permutation. -/
def isTopNResult (scores : List GapScore) (w : Nat) (n : Nat) (r : List GapScore) : Prop :=
  ∃ q : List GapScore,
    (scores.filter (fun g => decide (g.week_start = w))).Perm q ∧
    List.Pairwise (fun a b : GapScore => b.gap_score ≤ a.gap_score) q ∧
    r = q.take n

/-- Relational model of the same query with `ORDER BY gap_score ASC`
(the bottom-5 query of `get_summary`). -/
def isBottomNResult (scores : List GapScore) (w : Nat) (n : Nat) (r : List GapScore) : Prop :=
  ∃ q : List GapScore,
    (scores.filter (fun g => decide (g.week_start = w))).Perm q ∧
    List.Pairwise (fun a b : GapScore => a.gap_score ≤ b.gap_score) q ∧
    r = q.take n

/-- Two stored rows for the same week with equal gap scores. -/
def gTie1 : GapScore := ⟨"a", "etsy", 1/2, .competitive, 0⟩

/-- A second row tied with `gTie1` on `gap_score`. -/
def gTie2 : GapScore := ⟨"b", "etsy", 1/2, .competitive, 0⟩

/-- A stored `gap_scores` table holding the two tied rows. -/
def scoresTie : List GapScore := [gTie1, gTie2]

/-! ### C2, C3, C4: the pure primitives -/

/-- C2: `normalize_min_max(value, min, max)` returns exactly `0.5` whenever
`max == min`, and otherwise returns `(value - min) / (max - min)` clamped
to the interval `[0, 1]`, for all inputs. -/
theorem normalize_min_max_spec (value min_val max_val : ℚ) :
    (max_val = min_val → normalize_min_max value min_val max_val = 1/2) ∧
    (max_val ≠ min_val →
      normalize_min_max value min_val max_val =
        clamp01 ((value - min_val) / (max_val - min_val))) := by
  constructor
  · intro h
    simp [normalize_min_max, h]
  · intro h
    simp [normalize_min_max, clamp01, h]

/-- Witness for C2 at concrete inputs: a degenerate range gives `0.5` and a
proper range gives the clamped rescaling. -/
theorem normalize_min_max_spec_witness :
    normalize_min_max 7 2 2 = 1/2 ∧
    normalize_min_max 3 1 5 = clamp01 ((3 - 1) / (5 - 1)) :=
  ⟨(normalize_min_max_spec 7 2 2).1 rfl,
   (normalize_min_max_spec 3 1 5).2 (by norm_num)⟩

/-- C3: `compute_gap_score(demand, supply)` is the pure function
`clamp01(((demand - supply) + 1) / 2)`; in particular it maps
`(0.5, 0.5)` to `0.5`, `(1, 0)` to `1` and `(0, 1)` to `0`. -/
theorem compute_gap_score_spec :
    (∀ demand_score supply_score : ℚ,
      compute_gap_score demand_score supply_score =
        clamp01 ((demand_score - supply_score + 1) / 2)) ∧
    compute_gap_score (1/2) (1/2) = 1/2 ∧
    compute_gap_score 1 0 = 1 ∧
    compute_gap_score 0 1 = 0 := by
  refine ⟨fun d s => rfl, by norm_num [compute_gap_score], ?_, ?_⟩ <;>
    norm_num [compute_gap_score]

/-- C4: `assign_verdict` partitions the score line by the two fixed
thresholds, each boundary belonging to the higher-opportunity bucket, with
the four sample boundary points behaving as stated. -/
theorem assign_verdict_spec :
    (∀ x : ℚ, 6/10 ≤ x → assign_verdict x = .high_opportunity) ∧
    (∀ x : ℚ, 3/10 ≤ x → x < 6/10 → assign_verdict x = .competitive) ∧
    (∀ x : ℚ, x < 3/10 → assign_verdict x = .saturated) ∧
    assign_verdict (6/10) = .high_opportunity ∧
    assign_verdict (5999/10000) = .competitive ∧
    assign_verdict (3/10) = .competitive ∧
    assign_verdict (2999/10000) = .saturated := by
  refine ⟨?_, ?_, ?_, by norm_num [assign_verdict, HIGH_OPPORTUNITY_THRESHOLD],
    by norm_num [assign_verdict, HIGH_OPPORTUNITY_THRESHOLD, COMPETITIVE_THRESHOLD],
    by norm_num [assign_verdict, HIGH_OPPORTUNITY_THRESHOLD, COMPETITIVE_THRESHOLD],
    by norm_num [assign_verdict, HIGH_OPPORTUNITY_THRESHOLD, COMPETITIVE_THRESHOLD]⟩
  · intro x hx
    simp [assign_verdict, HIGH_OPPORTUNITY_THRESHOLD, hx]
  · intro x hlo hhi
    rw [assign_verdict, if_neg (by rw [HIGH_OPPORTUNITY_THRESHOLD]; exact not_le.mpr hhi),
      if_pos (by rw [COMPETITIVE_THRESHOLD]; exact hlo)]
  · intro x hx
    rw [assign_verdict, if_neg ?_, if_neg ?_]
    · rw [COMPETITIVE_THRESHOLD]; exact not_le.mpr hx
    · rw [HIGH_OPPORTUNITY_THRESHOLD]
      exact not_le.mpr (lt_trans hx (by norm_num))

/-- Witness for C4: the tier rules applied at three concrete scores. -/
theorem assign_verdict_spec_witness :
    assign_verdict (8/10) = .high_opportunity ∧
    assign_verdict (4/10) = .competitive ∧
    assign_verdict (1/10) = .saturated :=
  ⟨assign_verdict_spec.1 (8/10) (by norm_num),
   assign_verdict_spec.2.1 (4/10) (by norm_num) (by norm_num),
   assign_verdict_spec.2.2.1 (1/10) (by norm_num)⟩

/-! ### C5, C7: aggregation, absent entities, range invariants -/

lemma clamp_unit_bounds (x : ℚ) : 0 ≤ max 0 (min 1 x) ∧ max 0 (min 1 x) ≤ 1 :=
  ⟨le_max_left 0 _, max_le (by norm_num) (min_le_left 1 x)⟩

lemma normalize_min_max_bounds (value min_val max_val : ℚ) :
    0 ≤ normalize_min_max value min_val max_val ∧
      normalize_min_max value min_val max_val ≤ 1 := by
  rw [normalize_min_max]
  split
  · norm_num
  · exact clamp_unit_bounds _

lemma compute_gap_score_bounds (demand_score supply_score : ℚ) :
    0 ≤ compute_gap_score demand_score supply_score ∧
      compute_gap_score demand_score supply_score ≤ 1 :=
  clamp_unit_bounds _

/-- C5: `compute_gap_score_for_category` aggregates demand and supply as
the arithmetic mean of `normalized_value` over the rows matching the
four-part key (`0.0` on an empty match), returns `none` exactly when both
aggregates are `0.0`, and otherwise builds the row from
`compute_gap_score` and `assign_verdict` on those aggregates. -/
theorem compute_for_entity_spec (ms : List Metric) (c p : String) (w : Nat) :
    (compute_gap_score_for_category ms c p w = none ↔
      avgNormalized ms c p w .demand = 0 ∧ avgNormalized ms c p w .supply = 0) ∧
    (∀ t : MetricType, ms.filter (matchesEntity c p w t) = [] →
      avgNormalized ms c p w t = 0) ∧
    (∀ t : MetricType, ms.filter (matchesEntity c p w t) ≠ [] →
      avgNormalized ms c p w t * ((ms.filter (matchesEntity c p w t)).length : ℚ) =
        ((ms.filter (matchesEntity c p w t)).map (fun m => m.normalized_value)).sum) ∧
    (∀ g : GapScore, compute_gap_score_for_category ms c p w = some g →
      g = { category := c, platform := p,
            gap_score := compute_gap_score (avgNormalized ms c p w .demand)
              (avgNormalized ms c p w .supply),
            verdict := assign_verdict (compute_gap_score (avgNormalized ms c p w .demand)
              (avgNormalized ms c p w .supply)),
            week_start := w }) := by
  refine ⟨?_, ?_, ?_, ?_⟩
  · rw [compute_gap_score_for_category]
    split
    · next hcond => exact iff_of_true rfl hcond
    · next hcond => exact iff_of_false (by simp) hcond
  · intro t h
    simp [avgNormalized, h]
  · intro t h
    have hlen : ((ms.filter (matchesEntity c p w t)).length : ℚ) ≠ 0 := by
      exact_mod_cast fun hz => h (List.length_eq_zero.mp (by exact_mod_cast hz))
    rw [avgNormalized]
    simp only [List.isEmpty_iff]
    rw [if_neg h]
    exact div_mul_cancel₀ _ hlen
  · intro g hg
    rw [compute_gap_score_for_category] at hg
    split at hg
    · exact absurd hg (by simp)
    · exact (Option.some.inj hg).symm

/-- Witness for C5: on a two-row entity, the aggregate times the row count
is the sum of the normalized values (i.e. the aggregate is the mean). -/
theorem compute_for_entity_spec_witness :
    avgNormalized msEntity "planners" "etsy" 0 .demand *
        ((msEntity.filter (matchesEntity "planners" "etsy" 0 .demand)).length : ℚ) =
      ((msEntity.filter (matchesEntity "planners" "etsy" 0 .demand)).map
        (fun m => m.normalized_value)).sum :=
  (compute_for_entity_spec msEntity "planners" "etsy" 0).2.2.1 .demand (by decide)

/-- C7: after a cohort is normalized, every observation of that cohort has
`normalized_value` in `[0, 1]`, and every `GapScore` produced by the scorer
has `gap_score` in `[0, 1]`, regardless of the raw values. -/
theorem range_invariants :
    (∀ (ms : List Metric) (p : String) (t : MetricType) (w : Nat) (m : Metric),
      m ∈ (normalize_metrics_for_week ms p t w).1 → matchesCohort p t w m = true →
      0 ≤ m.normalized_value ∧ m.normalized_value ≤ 1) ∧
    (∀ (ms : List Metric) (c p : String) (w : Nat) (g : GapScore),
      compute_gap_score_for_category ms c p w = some g →
      0 ≤ g.gap_score ∧ g.gap_score ≤ 1) := by
  constructor
  · intro ms p t w m hmem hmatch
    rw [normalize_metrics_for_week] at hmem
    by_cases hemp : (ms.filter (matchesCohort p t w)).isEmpty
    · rw [if_pos hemp] at hmem
      exact absurd (List.mem_filter.mpr ⟨hmem, hmatch⟩)
        (by simp [List.isEmpty_iff.mp hemp])
    · rw [if_neg hemp] at hmem
      obtain ⟨m0, _, hf⟩ := List.mem_map.1 hmem
      by_cases h0 : matchesCohort p t w m0
      · rw [if_pos h0] at hf
        rw [← hf]
        exact normalize_min_max_bounds _ _ _
      · rw [if_neg h0] at hf
        rw [← hf] at hmatch
        exact absurd hmatch h0
  · intro ms c p w g hg
    rw [compute_gap_score_for_category] at hg
    split at hg
    · exact absurd hg (by simp)
    · rw [← Option.some.inj hg]
      exact compute_gap_score_bounds _ _

/-- Witness for C7: the normalized member of a concrete cohort is within
`[0, 1]`. -/
theorem range_invariants_witness :
    0 ≤ mCohortOut.normalized_value ∧ mCohortOut.normalized_value ≤ 1 :=
  range_invariants.1 msCohort "etsy" .demand 0 mCohortOut (List.Mem.head _) (by rfl)

/-! ### Normalization metatheory shared by C8 and C1 -/

lemma matchesCohort_normStep (ms : List Metric) (p : String) (t : MetricType)
    (w : Nat) (p' : String) (t' : MetricType) (w' : Nat) (m : Metric) :
    matchesCohort p' t' w' (normStep ms p t w m) = matchesCohort p' t' w' m := by
  unfold normStep
  split <;> rfl

lemma raw_value_normStep (ms : List Metric) (p : String) (t : MetricType)
    (w : Nat) (m : Metric) : (normStep ms p t w m).raw_value = m.raw_value := by
  unfold normStep
  split <;> rfl

lemma normalize_metrics_eq (ms : List Metric) (p : String) (t : MetricType) (w : Nat) :
    normalize_metrics_for_week ms p t w =
      (ms.map (normStep ms p t w), (ms.filter (matchesCohort p t w)).length) := by
  simp only [normalize_metrics_for_week, normStep]
  by_cases h : (ms.filter (matchesCohort p t w)).isEmpty
  · rw [if_pos h]
    have hnil : ms.filter (matchesCohort p t w) = [] := List.isEmpty_iff.mp h
    have hfix : ∀ m ∈ ms, m =
        if matchesCohort p t w m then
          { m with normalized_value :=
              (normalize_min_max m.raw_value
                (listMin ((ms.filter (matchesCohort p t w)).map (fun x => x.raw_value)))
                (listMax ((ms.filter (matchesCohort p t w)).map (fun x => x.raw_value)))) }
        else m := by
      intro m hm
      rw [if_neg fun hmc =>
        absurd (List.mem_filter.mpr ⟨hm, hmc⟩) (by simp [hnil])]
    rw [Prod.mk.injEq]
    exact ⟨(List.map_id ms).symm.trans (List.map_congr_left hfix), by simp [hnil]⟩
  · rw [if_neg h, Prod.mk.injEq]
    exact ⟨List.map_congr_left fun m _ => by rw [normStep], rfl⟩

/-- Rewriting one cohort leaves every cohort's row count unchanged
(the WHERE-clause key fields are never written). -/
lemma filter_length_normalize (ms : List Metric) (p : String) (t : MetricType)
    (w : Nat) (p' : String) (t' : MetricType) (w' : Nat) :
    ((normalize_metrics_for_week ms p t w).1.filter (matchesCohort p' t' w')).length =
      (ms.filter (matchesCohort p' t' w')).length := by
  rw [normalize_metrics_eq]
  rw [← List.countP_eq_length_filter, ← List.countP_eq_length_filter, List.countP_map]
  have hpt : ∀ m ∈ ms,
      (matchesCohort p' t' w' ∘ normStep ms p t w) m = true ↔
        matchesCohort p' t' w' m = true := fun m _ => by
    rw [Function.comp_apply, matchesCohort_normStep]
  rw [List.countP_congr hpt, List.countP_eq_length_filter]

/-- The count returned by the cohort loop is the sum of the cohort sizes
of the initial metric list. -/
lemma runCohorts_count (keys : List (String × MetricType)) (w : Nat) (ms : List Metric) :
    (runCohorts keys w ms).2 =
      (keys.map (fun pr => (ms.filter (matchesCohort pr.1 pr.2 w)).length)).sum := by
  induction keys generalizing ms with
  | nil => rfl
  | cons hd rest ih =>
    obtain ⟨p, t⟩ := hd
    simp only [runCohorts, List.map_cons, List.sum_cons]
    rw [ih, normalize_metrics_eq]
    congr 1
    exact congrArg List.sum (List.map_congr_left fun pr _ => by
      rw [← normalize_metrics_eq, filter_length_normalize])

/-- C8: `normalize_all_metrics_for_week` sweeps exactly the fixed
cross-product of the four platforms with the two normalized metric kinds,
returns the sum of the per-cohort counts, and a cohort with zero
observations contributes `0` while leaving the data untouched. -/
theorem normalize_week_spec (ms : List Metric) (w : Nat) :
    weekCohortKeys =
      [("etsy", .demand), ("etsy", .supply), ("gumroad", .demand), ("gumroad", .supply),
       ("whop", .demand), ("whop", .supply), ("reddit", .demand), ("reddit", .supply)] ∧
    (normalize_all_metrics_for_week ms w).2 =
      (weekCohortKeys.map (fun pr => (ms.filter (matchesCohort pr.1 pr.2 w)).length)).sum ∧
    (∀ (p : String) (t : MetricType), ms.filter (matchesCohort p t w) = [] →
      normalize_metrics_for_week ms p t w = (ms, 0)) := by
  refine ⟨rfl, runCohorts_count weekCohortKeys w ms, fun p t h => ?_⟩
  rw [normalize_metrics_eq, h]
  rw [Prod.mk.injEq]
  refine ⟨(List.map_congr_left fun m hm => ?_).trans (List.map_id ms), rfl⟩
  unfold normStep
  rw [if_neg fun hmc => absurd (List.mem_filter.mpr ⟨hm, hmc⟩) (by simp [h])]
  rfl

/-- Witness for C8: a platform with no rows for the week is a silent
no-op contributing `0`. -/
theorem normalize_week_spec_witness :
    normalize_metrics_for_week msEntity "gumroad" .demand 0 = (msEntity, 0) :=
  (normalize_week_spec msEntity 0).2.2 "gumroad" .demand (by rfl)

/-! ### C1, C6: the weekly replace and its idempotence -/

lemma matchesCohort_reNormF (keys : List (String × MetricType)) (w : Nat)
    (ms : List Metric) (p' : String) (t' : MetricType) (w' : Nat) (m : Metric) :
    matchesCohort p' t' w' (reNormF keys w ms m) = matchesCohort p' t' w' m := by
  unfold reNormF
  split <;> rfl

lemma raw_value_reNormF (keys : List (String × MetricType)) (w : Nat)
    (ms : List Metric) (m : Metric) :
    (reNormF keys w ms m).raw_value = m.raw_value := by
  unfold reNormF
  split <;> rfl

lemma key_fields_reNormF (keys : List (String × MetricType)) (w : Nat)
    (ms : List Metric) (m : Metric) :
    (reNormF keys w ms m).platform = m.platform ∧
      (reNormF keys w ms m).metric_type = m.metric_type ∧
      (reNormF keys w ms m).week_start = m.week_start := by
  unfold reNormF
  split <;> exact ⟨rfl, rfl, rfl⟩

/-- Mapping any normalized-value rewrite over the list changes no cohort's
raw-value sequence. -/
lemma filter_map_raw_invariant (f : Metric → Metric)
    (hmc : ∀ (p' : String) (t' : MetricType) (w' : Nat) (m : Metric),
      matchesCohort p' t' w' (f m) = matchesCohort p' t' w' m)
    (hraw : ∀ m, (f m).raw_value = m.raw_value)
    (ms : List Metric) (p' : String) (t' : MetricType) (w' : Nat) :
    ((ms.map f).filter (matchesCohort p' t' w')).map (fun x => x.raw_value) =
      (ms.filter (matchesCohort p' t' w')).map (fun x => x.raw_value) := by
  induction ms with
  | nil => rfl
  | cons a l ih =>
    simp only [List.map_cons, List.filter_cons, hmc]
    by_cases h : matchesCohort p' t' w' a = true
    · simp only [h, if_pos, List.map_cons, ih, hraw]
    · simp only [h, Bool.false_eq_true, if_false, ih]

lemma cohortRaws_map_normStep (ms0 ms : List Metric) (p : String) (t : MetricType)
    (w : Nat) (p' : String) (t' : MetricType) (w' : Nat) :
    ((ms.map (normStep ms0 p t w)).filter (matchesCohort p' t' w')).map
        (fun x => x.raw_value) =
      (ms.filter (matchesCohort p' t' w')).map (fun x => x.raw_value) :=
  filter_map_raw_invariant (normStep ms0 p t w)
    (fun p' t' w' m => matchesCohort_normStep ms0 p t w p' t' w' m)
    (fun m => raw_value_normStep ms0 p t w m) ms p' t' w'

lemma cohortRaws_map_reNormF (keys : List (String × MetricType)) (w : Nat)
    (ms0 ms : List Metric) (p' : String) (t' : MetricType) (w' : Nat) :
    ((ms.map (reNormF keys w ms0)).filter (matchesCohort p' t' w')).map
        (fun x => x.raw_value) =
      (ms.filter (matchesCohort p' t' w')).map (fun x => x.raw_value) :=
  filter_map_raw_invariant (reNormF keys w ms0)
    (fun p' t' w' m => matchesCohort_reNormF keys w ms0 p' t' w' m)
    (fun m => raw_value_reNormF keys w ms0 m) ms p' t' w'

/-- One cohort pass composed with the cumulative sweep of the remaining
cohorts equals the cumulative sweep of all of them. -/
lemma normStep_then_reNormF (p : String) (t : MetricType)
    (rest : List (String × MetricType)) (w : Nat) (ms : List Metric) (m : Metric) :
    reNormF rest w (ms.map (normStep ms p t w)) (normStep ms p t w m) =
      reNormF ((p, t) :: rest) w ms m := by
  by_cases hm : matchesCohort p t w m = true
  · obtain ⟨h1, h2, h3⟩ := of_decide_eq_true hm
    rw [normStep, if_pos hm, reNormF, reNormF]
    dsimp only
    rw [h1, h2, h3]
    by_cases hr : (p, t) ∈ rest
    · rw [if_pos ⟨hr, rfl⟩, if_pos ⟨List.mem_cons_self _ _, rfl⟩,
        cohortRaws_map_normStep]
    · rw [if_neg fun hc => hr hc.1, if_pos ⟨List.mem_cons_self _ _, rfl⟩]
  · rw [normStep, if_neg hm, reNormF, reNormF]
    by_cases hw : m.week_start = w
    · have hne : (m.platform, m.metric_type) ≠ (p, t) := by
        intro hpair
        obtain ⟨hp, ht⟩ := Prod.mk.injEq .. ▸ hpair
        exact hm (by simp [matchesCohort, hp, ht, hw])
      by_cases hr : (m.platform, m.metric_type) ∈ rest
      · rw [if_pos ⟨hr, hw⟩, if_pos ⟨List.mem_cons_of_mem _ hr, hw⟩,
          cohortRaws_map_normStep]
      · rw [if_neg fun hc => hr hc.1, if_neg fun hc =>
          hr ((List.mem_cons.mp hc.1).resolve_left hne)]
    · rw [if_neg fun hc => hw hc.2, if_neg fun hc => hw hc.2]

/-- The sequential cohort sweep equals a single map of the cumulative
per-element rewrite over the initial list. -/
lemma runCohorts_eq_map (keys : List (String × MetricType)) (w : Nat) (ms : List Metric) :
    (runCohorts keys w ms).1 = ms.map (reNormF keys w ms) := by
  induction keys generalizing ms with
  | nil =>
    simp only [runCohorts]
    symm
    refine (List.map_congr_left fun m _ => ?_).trans (List.map_id ms)
    rw [reNormF, if_neg fun hc => List.not_mem_nil _ hc.1]
    rfl
  | cons hd rest ih =>
    obtain ⟨p, t⟩ := hd
    simp only [runCohorts]
    rw [normalize_metrics_eq]
    dsimp only
    rw [ih, List.map_map]
    exact List.map_congr_left fun m _ => by
      rw [Function.comp_apply]
      exact normStep_then_reNormF p t rest w ms m

/-- The cumulative sweep fixes every element it has already produced:
normalized values are recomputed from raw values only, and those are
never changed. -/
lemma reNormF_fix (keys : List (String × MetricType)) (w : Nat) (ms : List Metric)
    (m : Metric) :
    reNormF keys w (ms.map (reNormF keys w ms)) (reNormF keys w ms m) =
      reNormF keys w ms m := by
  by_cases hc : (m.platform, m.metric_type) ∈ keys ∧ m.week_start = w
  · have hinner : reNormF keys w ms m =
        { m with normalized_value :=
            (normalize_min_max m.raw_value
              (listMin ((ms.filter (matchesCohort m.platform m.metric_type w)).map
                (fun x => x.raw_value)))
              (listMax ((ms.filter (matchesCohort m.platform m.metric_type w)).map
                (fun x => x.raw_value)))) } := by
      rw [reNormF, if_pos hc]
    rw [hinner, reNormF]
    dsimp only
    rw [if_pos hc, cohortRaws_map_reNormF]
  · have hinner : reNormF keys w ms m = m := by
      rw [reNormF, if_neg hc]
    rw [hinner, reNormF, if_neg hc]

/-- Running the cohort sweep a second time changes nothing. -/
lemma runCohorts_idem (keys : List (String × MetricType)) (w : Nat) (ms : List Metric) :
    (runCohorts keys w (runCohorts keys w ms).1).1 = (runCohorts keys w ms).1 := by
  have h1 : (runCohorts keys w ms).1 = ms.map (reNormF keys w ms) :=
    runCohorts_eq_map keys w ms
  rw [h1, runCohorts_eq_map, List.map_map]
  exact List.map_congr_left fun m _ => by
    rw [Function.comp_apply]
    exact reNormF_fix keys w ms m

/-- `normalize_all_metrics_for_week` is idempotent on the metric table. -/
lemma normalize_all_idem (ms : List Metric) (w : Nat) :
    (normalize_all_metrics_for_week (normalize_all_metrics_for_week ms w).1 w).1 =
      (normalize_all_metrics_for_week ms w).1 :=
  runCohorts_idem weekCohortKeys w ms

lemma compute_gap_fields (ms : List Metric) (c p : String) (w : Nat) (g : GapScore)
    (h : compute_gap_score_for_category ms c p w = some g) :
    g.category = c ∧ g.platform = p ∧ g.week_start = w := by
  rw [compute_gap_score_for_category] at h
  split at h
  · exact absurd h (by simp)
  · rw [← Option.some.inj h]
    exact ⟨rfl, rfl, rfl⟩

lemma weekRows_week_start (ms : List Metric) (w : Nat) :
    ∀ g ∈ weekRows ms w, g.week_start = w := by
  intro g hg
  simp only [weekRows, List.mem_filterMap] at hg
  obtain ⟨pr, _, hsome⟩ := hg
  exact (compute_gap_fields ms pr.1 pr.2 w g hsome).2.2

lemma filter_not_week_self (l : List GapScore) (w : Nat) :
    (l.filter fun s => !decide (s.week_start = w)).filter
        (fun s => !decide (s.week_start = w)) =
      l.filter fun s => !decide (s.week_start = w) :=
  List.filter_eq_self.mpr fun _ ha => (List.mem_filter.mp ha).2

lemma weekRows_filter_not (ms : List Metric) (w : Nat) :
    (weekRows ms w).filter (fun s => !decide (s.week_start = w)) = [] :=
  List.filter_eq_nil_iff.mpr fun g hg => by
    simp [weekRows_week_start ms w g hg]

lemma filter_week_of_not (l : List GapScore) (w : Nat) :
    (l.filter fun s => !decide (s.week_start = w)).filter
      (fun g => decide (g.week_start = w)) = [] :=
  List.filter_eq_nil_iff.mpr fun g hg => by
    have hne := (List.mem_filter.mp hg).2
    simp only [Bool.not_eq_true', decide_eq_false_iff_not] at hne
    simp [hne]

lemma weekRows_filter_week (ms : List Metric) (w : Nat) :
    (weekRows ms w).filter (fun g => decide (g.week_start = w)) = weekRows ms w :=
  List.filter_eq_self.mpr fun g hg => by
    simp [weekRows_week_start ms w g hg]

/-- C1: running the weekly pipeline (normalize, then recompute the gap
scores) twice in immediate succession with no intervening data changes
leaves the stored `GapScore` table — in particular the week's rows, with
their (category, platform) keys, scores and verdicts — exactly as after
the first run. -/
theorem run_week_idempotent (st : Store) (w : Nat) :
    (run_week (run_week st w).1 w).1.scores = (run_week st w).1.scores ∧
    (run_week (run_week st w).1 w).1.scores.filter (fun g => decide (g.week_start = w)) =
      (run_week st w).1.scores.filter (fun g => decide (g.week_start = w)) := by
  have hmain :
      (run_week (run_week st w).1 w).1.scores = (run_week st w).1.scores := by
    simp only [run_week, compute_all_gap_scores_for_week]
    rw [normalize_all_idem st.metrics w, List.filter_append, filter_not_week_self,
      weekRows_filter_not, List.append_nil]
  exact ⟨hmain, congrArg _ hmain⟩

/-- A `GapScore` list is produced per distinct (category, platform) pair,
so its keys are pairwise distinct. -/
lemma filterMap_keys_pairwise (ms : List Metric) (w : Nat) :
    ∀ combos : List (String × String), combos.Nodup →
      List.Pairwise (fun a b : GapScore =>
          (a.category, a.platform) ≠ (b.category, b.platform))
        (combos.filterMap fun pr => compute_gap_score_for_category ms pr.1 pr.2 w) := by
  intro combos
  induction combos with
  | nil =>
    intro _
    simp
  | cons hd rest ih =>
    intro hnd
    obtain ⟨hmem, hrest⟩ := List.nodup_cons.mp hnd
    cases hf : compute_gap_score_for_category ms hd.1 hd.2 w with
    | none =>
      simp only [List.filterMap_cons, hf]
      exact ih hrest
    | some g =>
      simp only [List.filterMap_cons, hf]
      refine List.Pairwise.cons (fun b hb => ?_) (ih hrest)
      simp only [List.mem_filterMap] at hb
      obtain ⟨pr, hpr, hb⟩ := hb
      obtain ⟨hgc, hgp, _⟩ := compute_gap_fields ms hd.1 hd.2 w g hf
      obtain ⟨hbc, hbp, _⟩ := compute_gap_fields ms pr.1 pr.2 w b hb
      intro hkey
      apply hmem
      have hpq : hd = pr := by
        have h1 : hd.1 = pr.1 := by
          rw [← hgc, ← hbc]
          exact congrArg Prod.fst hkey
        have h2 : hd.2 = pr.2 := by
          rw [← hgp, ← hbp]
          exact congrArg Prod.snd hkey
        exact Prod.ext_iff.mpr ⟨h1, h2⟩
      exact hpq ▸ hpr

/-- C6: after `compute_all_gap_scores_for_week(week)` completes, the rows
stored for that week are exactly the rows produced in that run, and their
(category, platform) keys are pairwise distinct. -/
theorem full_replace_spec (st : Store) (w : Nat) :
    ((compute_all_gap_scores_for_week st w).1.scores.filter
        (fun g => decide (g.week_start = w)) = weekRows st.metrics w) ∧
    List.Pairwise (fun a b : GapScore =>
        (a.category, a.platform) ≠ (b.category, b.platform))
      ((compute_all_gap_scores_for_week st w).1.scores.filter
        (fun g => decide (g.week_start = w))) := by
  have hfilter :
      (compute_all_gap_scores_for_week st w).1.scores.filter
        (fun g => decide (g.week_start = w)) = weekRows st.metrics w := by
    simp only [compute_all_gap_scores_for_week]
    rw [List.filter_append, filter_week_of_not, weekRows_filter_week,
      List.nil_append]
  refine ⟨hfilter, hfilter ▸ ?_⟩
  exact filterMap_keys_pairwise st.metrics w (distinctCombos st.metrics w)
    (List.nodup_dedup _)

/-! ### C9: the summary's metric-kind fields are not averages -/

/-- C9 evaluation at the failing input: for an entity with two demand
observations normalized to `0.2` and `0.8`, the summary row reports
`avg_demand = 0.2` (the first row's value), while the arithmetic mean of
the matching normalized values is `0.5`; the two disagree. -/
theorem summary_avg_bug :
    (enrichRow msBug 0 gBug).avg_demand = 1/5 ∧
    avgNormalized msBug "digital planners" "etsy" 0 .demand = 1/2 ∧
    (1 : ℚ)/5 ≠ 1/2 :=
  ⟨by rfl, by norm_num [avgNormalized, msBug, matchesEntity], by norm_num⟩

/-! ### C10: query ordering -/

/-- C10 as stated fails: with two stored rows tied on `gap_score`, the
top-N query (no secondary sort key) admits two distinct result orders for
the same stored rows, so the returned order is not a deterministic
function of the stored rows. -/
theorem topn_not_deterministic :
    isTopNResult scoresTie 0 5 [gTie1, gTie2] ∧
    isTopNResult scoresTie 0 5 [gTie2, gTie1] ∧
    ([gTie1, gTie2] : List GapScore) ≠ [gTie2, gTie1] := by
  refine ⟨⟨[gTie1, gTie2], List.Perm.refl _, ?_, rfl⟩,
    ⟨[gTie2, gTie1], ?_, ?_, rfl⟩, ?_⟩
  · simp [gTie1, gTie2, List.pairwise_cons]
  · exact List.Perm.swap gTie2 gTie1 []
  · simp [gTie1, gTie2, List.pairwise_cons]
  · simp [gTie1, gTie2]

/-- C10 amended: for every week and every stored set of GapScore rows,
any result the top-N query may return is ordered by `gap_score`
descending, has at most N rows, and consists of stored rows of that week;
the bottom-N query likewise with ascending order. No secondary sort key is
specified, so the relative order of rows with equal `gap_score` is not
determined by the query. -/
theorem ordered_queries_spec (scores : List GapScore) (w n : Nat) (r : List GapScore) :
    (isTopNResult scores w n r →
      List.Pairwise (fun a b : GapScore => b.gap_score ≤ a.gap_score) r ∧
      r.length ≤ n ∧ ∀ g ∈ r, g ∈ scores ∧ g.week_start = w) ∧
    (isBottomNResult scores w n r →
      List.Pairwise (fun a b : GapScore => a.gap_score ≤ b.gap_score) r ∧
      r.length ≤ n ∧ ∀ g ∈ r, g ∈ scores ∧ g.week_start = w) := by
  constructor
  · rintro ⟨q, hperm, hsorted, rfl⟩
    refine ⟨hsorted.sublist (List.take_sublist n q), ?_, fun g hg => ?_⟩
    · rw [List.length_take]
      exact min_le_left _ _
    · have hq : g ∈ q := List.take_subset n q hg
      have hmem := List.mem_filter.mp (hperm.mem_iff.mpr hq)
      exact ⟨hmem.1, of_decide_eq_true hmem.2⟩
  · rintro ⟨q, hperm, hsorted, rfl⟩
    refine ⟨hsorted.sublist (List.take_sublist n q), ?_, fun g hg => ?_⟩
    · rw [List.length_take]
      exact min_le_left _ _
    · have hq : g ∈ q := List.take_subset n q hg
      have hmem := List.mem_filter.mp (hperm.mem_iff.mpr hq)
      exact ⟨hmem.1, of_decide_eq_true hmem.2⟩

/-- Witness for the amended C10: a concrete valid top-5 result over the
tied store is sorted descending, short enough, and drawn from the week's
stored rows. -/
theorem ordered_queries_spec_witness :
    List.Pairwise (fun a b : GapScore => b.gap_score ≤ a.gap_score) [gTie1, gTie2] ∧
    ([gTie1, gTie2] : List GapScore).length ≤ 5 ∧
    ∀ g ∈ ([gTie1, gTie2] : List GapScore), g ∈ scoresTie ∧ g.week_start = 0 :=
  (ordered_queries_spec scoresTie 0 5 [gTie1, gTie2]).1
    ⟨[gTie1, gTie2], List.Perm.refl _,
      by simp [gTie1, gTie2, List.pairwise_cons], rfl⟩

end ProvenDemand
